import Mathlib

/-!
Verification development for the motion-controlled rhythm game.

The gameplay simulation core (note activation, miss expiry, hit testing)
is embedded from the `GameScene` component in `src/index.tsx`; the score
reducer from `src/App.tsx`; the hand-state estimator (`processResults`,
`checkGrip`, `mapHandToWorld`) from the `useMediaPipe` hook; the chart
generators from `src/constants.ts` and `src/index.tsx`.

Numeric quantities are modelled as exact rationals.  Comparisons that the
source performs on square roots (`Vector3.length`, `distanceTo`,
`normalize().dot`) are embedded in their exact squared form: for
nonnegative `d` and positive `r`, `Real.sqrt d < r` iff `d < r ^ 2`, and
for a unit axis vector `u`, `(v / ‖v‖) ⬝ u ≥ c` (with `c > 0`, `‖v‖ > 0`)
iff `0 < v ⬝ u ∧ c ^ 2 * ‖v‖ ^ 2 ≤ (v ⬝ u) ^ 2`; the zero vector is kept
unchanged by `normalize`, as in three.js.
-/

namespace TempoStrike

/-- A 3D vector / point in game-world space (`THREE.Vector3`). -/
structure Vec3 where
  x : ℚ
  y : ℚ
  z : ℚ
deriving DecidableEq, Repr

def Vec3.zero : Vec3 := ⟨0, 0, 0⟩

def Vec3.sub (a b : Vec3) : Vec3 := ⟨a.x - b.x, a.y - b.y, a.z - b.z⟩

def Vec3.add (a b : Vec3) : Vec3 := ⟨a.x + b.x, a.y + b.y, a.z + b.z⟩

def Vec3.scale (c : ℚ) (a : Vec3) : Vec3 := ⟨c * a.x, c * a.y, c * a.z⟩

/-- Dot product of two vectors. -/
def dot (a b : Vec3) : ℚ := a.x * b.x + a.y * b.y + a.z * b.z

/-- Squared Euclidean norm (`v.lengthSq()`); `v.length()` is its square root. -/
def normSq (v : Vec3) : ℚ := dot v v

/-- Squared distance between two points (`a.distanceToSquared(b)`). -/
def distSq (a b : Vec3) : ℚ := normSq (a.sub b)

/-- `a.lerpVectors(a, b, t)` : `a + (b - a) * t`, componentwise. -/
def lerpV (a b : Vec3) (t : ℚ) : Vec3 := a.add (Vec3.scale t (b.sub a))

/-- Which hand a note requires (`HandType = 'left' | 'right'`). -/
inductive HandSide where
  | left
  | right
deriving DecidableEq, Repr

/-- Required cut direction (`enum CutDirection`). -/
inductive CutDirection where
  | up
  | down
  | left
  | right
  | any
deriving DecidableEq, Repr

/-- One chart entry (`interface NoteData`).  The string id `note-${k}` is
represented by its numeric counter `k`. -/
structure NoteData where
  id : ℕ
  time : ℚ
  lineIndex : ℕ
  lineLayer : ℕ
  type : HandSide
  cutDirection : CutDirection
  requiresGrip : Bool := false
  hit : Bool := false
  missed : Bool := false
  hitTime : Option ℚ := none
deriving DecidableEq, Repr

/-- Latest hand state snapshot read by the simulation tick
(`interface HandPositions`). -/
structure HandPositions where
  left : Option Vec3
  right : Option Vec3
  leftVelocity : Vec3
  rightVelocity : Vec3
  leftGripping : Bool
  rightGripping : Bool
deriving DecidableEq, Repr

def handFor (h : HandPositions) : HandSide → Option Vec3
  | .left => h.left
  | .right => h.right

def velFor (h : HandPositions) : HandSide → Vec3
  | .left => h.leftVelocity
  | .right => h.rightVelocity

/-- Chart sortedness: each note's scheduled time is `≤` the next one's. -/
def SortedByTime (l : List NoteData) : Prop :=
  List.Pairwise (fun a b : NoteData => a.time ≤ b.time) l

/-! ### Game world constants from `src/index.tsx` -/

namespace IndexTsx

def SPAWN_Z : ℚ := -30
def PLAYER_Z : ℚ := 0
def MISS_Z : ℚ := 5
def NOTE_SPEED : ℚ := 10
def LANE_WIDTH : ℚ := 4/5
def BEAT_TIME : ℚ := 60 / 140

def LANE_X_POSITIONS : List ℚ :=
  [-3/2 * LANE_WIDTH, -1/2 * LANE_WIDTH, 1/2 * LANE_WIDTH, 3/2 * LANE_WIDTH]

def LAYER_Y_POSITIONS : List ℚ := [4/5, 8/5, 12/5]

/-- `DIRECTION_VECTORS`: unit vectors for direction checking, zero for ANY. -/
def directionVector : CutDirection → Vec3
  | .up => ⟨0, 1, 0⟩
  | .down => ⟨0, -1, 0⟩
  | .left => ⟨-1, 0, 0⟩
  | .right => ⟨1, 0, 0⟩
  | .any => ⟨0, 0, 0⟩

/-- `Math.abs(SPAWN_Z - PLAYER_Z) / NOTE_SPEED` (the lookahead window). -/
def spawnAheadTime : ℚ := |SPAWN_Z - PLAYER_Z| / NOTE_SPEED

/-- Derived depth of a note at playback time `t`:
`PLAYER_Z - (note.time - time) * NOTE_SPEED`. -/
def depthAt (t : ℚ) (note : NoteData) : ℚ :=
  PLAYER_Z - (note.time - t) * NOTE_SPEED

/-- The note's fixed lane/layer coordinates at depth `z`. -/
def noteWorldPos (note : NoteData) (z : ℚ) : Vec3 :=
  ⟨LANE_X_POSITIONS.getD note.lineIndex 0, LAYER_Y_POSITIONS.getD note.lineLayer 0, z⟩

/-- `handVel.normalize().dot(d) < c` decided exactly, for a constant `c > 0`.
three.js `normalize` leaves the zero vector unchanged, so its dot product
is `0` there. -/
def normDotLt (v d : Vec3) (c : ℚ) : Bool :=
  if normSq v = 0 then decide (0 < c)
  else decide (dot v d ≤ 0 ∨ (dot v d) ^ 2 < c ^ 2 * normSq v)

/-- `handVel.length() < c` decided exactly, for a constant `c > 0`. -/
def speedLt (v : Vec3) (c : ℚ) : Bool :=
  decide (normSq v < c ^ 2)

/-- Outcome quality of a resolving hit: `goodCut` starts `true` and is
cleared when the direction/speed test fails. -/
def goodCutEval (note : NoteData) (vel : Vec3) : Bool :=
  if note.cutDirection ≠ CutDirection.any then
    !(normDotLt vel (directionVector note.cutDirection) (3/10) || speedLt vel (3/2))
  else
    !(speedLt vel (3/2))

/-- Result of the per-note body of the tick loop. -/
inductive JudgeResult where
  | skip
  | miss
  | hit (goodCut : Bool)
deriving DecidableEq, Repr

/-- The body of the per-tick loop over active notes in `GameScene.useFrame`:
skip already-resolved notes, then the miss-expiry check, then the
judgement-window / hand-distance hit test. -/
def judgeNote (hands : HandPositions) (t : ℚ) (note : NoteData) : JudgeResult :=
  if note.hit || note.missed then .skip
  else
    let currentZ := depthAt t note
    if MISS_Z < currentZ then .miss
    else if PLAYER_Z - 3/2 < currentZ ∧ currentZ < PLAYER_Z + 1 then
      match handFor hands note.type with
      | none => .skip
      | some handPos =>
        if distSq handPos (noteWorldPos note currentZ) < (4/5) ^ 2 then
          .hit (goodCutEval note (velFor hands note.type))
        else .skip
    else .skip

/-- The in-place note mutation performed when a note is judged. -/
def applyJudge (hands : HandPositions) (t : ℚ) (note : NoteData) : NoteData :=
  match judgeNote hands t note with
  | .skip => note
  | .miss => { note with missed := true }
  | .hit _ => { note with hit := true, hitTime := some t }

/-- Iterated per-note judgement across a sequence of ticks, each with its
own hand snapshot and playback time. -/
def runTicksNote (ticks : List (HandPositions × ℚ)) (n : NoteData) : NoteData :=
  ticks.foldl (fun m p => applyJudge p.1 p.2 m) n

/-- Events emitted by the simulation core. -/
inductive GameEvent where
  | noteHit (note : NoteData) (goodCut : Bool)
  | noteMiss (note : NoteData)
deriving DecidableEq, Repr

/-- The event (if any) a note produces this tick. -/
def eventOf (hands : HandPositions) (t : ℚ) (note : NoteData) : Option GameEvent :=
  match judgeNote hands t note with
  | .skip => none
  | .miss => some (.noteMiss { note with missed := true })
  | .hit g => some (.noteHit { note with hit := true, hitTime := some t } g)

/-- The tick's miss-expiry / hit-testing pass.  The source iterates the
active array from the last index down to `0` (so that `splice` is safe),
so the recursion processes the tail of the list before its head and each
emitted event is appended after the tail's events.  Resolved notes are
removed from the active list. -/
def tickGo (hands : HandPositions) (t : ℚ) : List NoteData → List NoteData × List GameEvent
  | [] => ([], [])
  | n :: rest =>
    let res := tickGo hands t rest
    match judgeNote hands t n with
    | .skip => (n :: res.1, res.2)
    | .miss => (res.1, res.2 ++ [GameEvent.noteMiss { n with missed := true }])
    | .hit g =>
        (res.1, res.2 ++ [GameEvent.noteHit { n with hit := true, hitTime := some t } g])

/-- The activation loop: starting at the cursor, push every note with
`note.time - spawnAheadTime ≤ time` onto the active set and advance the
cursor, stopping at the first note that fails the test.  Only the cursor
is returned; the pushed slice is `notes.drop idx |>.take (result - idx)`. -/
def activateFrom (notes : List NoteData) (t : ℚ) (idx : ℕ) : ℕ :=
  if h : idx < notes.length then
    if (notes.get ⟨idx, h⟩).time - spawnAheadTime ≤ t then
      activateFrom notes t (idx + 1)
    else idx
  else idx
termination_by notes.length - idx
decreasing_by omega

/-- Cursor after a sequence of ticks at the given playback times,
starting from cursor `0`. -/
def runActivation (notes : List NoteData) (ts : List ℚ) : ℕ :=
  ts.foldl (fun idx t => activateFrom notes t idx) 0

end IndexTsx

/-! ### Score/combo/health reducer from `src/App.tsx` -/

namespace AppTsx

/-- The score-state slice of the play session. -/
structure ScoreState where
  score : ℤ
  combo : ℤ
  multiplier : ℤ
  health : ℤ
deriving DecidableEq, Repr

/-- Events consumed by the reducer. -/
inductive ScoreEvent where
  | noteHit (goodCut : Bool)
  | noteMiss
deriving DecidableEq, Repr

/-- The step function of the combo multiplier, applied to the new combo. -/
def stepMultiplier (newCombo : ℤ) : ℤ :=
  if 30 < newCombo then 8
  else if 20 < newCombo then 4
  else if 10 < newCombo then 2
  else 1

/-- `handleNoteHit` from `src/App.tsx`: on a good cut, 150 base points are
scaled by the multiplier captured before this event, the combo increments
and the multiplier is recomputed from the new combo, health gains 2 capped
at 100; on a bad cut, combo and multiplier reset, score loses 50 clamped
at 0, health loses 5 clamped at 0. -/
def handleNoteHit (s : ScoreState) (goodCut : Bool) : ScoreState :=
  if goodCut then
    { score := s.score + 150 * s.multiplier
      combo := s.combo + 1
      multiplier := stepMultiplier (s.combo + 1)
      health := min 100 (s.health + 2) }
  else
    { score := max 0 (s.score - 50)
      combo := 0
      multiplier := 1
      health := max 0 (s.health - 5) }

/-- `handleNoteMiss` from `src/App.tsx`: combo and multiplier reset, score
loses 50 clamped at 0, health loses 15 and is floored at 0. -/
def handleNoteMiss (s : ScoreState) : ScoreState :=
  { score := max 0 (s.score - 50)
    combo := 0
    multiplier := 1
    health := if s.health - 15 ≤ 0 then 0 else s.health - 15 }

def stepEvent (s : ScoreState) : ScoreEvent → ScoreState
  | .noteHit g => handleNoteHit s g
  | .noteMiss => handleNoteMiss s

def runEvents (s : ScoreState) (evs : List ScoreEvent) : ScoreState :=
  evs.foldl stepEvent s

/-- Session start state: score 0, combo 0, multiplier 1, health 100. -/
def initialState : ScoreState := ⟨0, 0, 1, 100⟩

end AppTsx

/-! ### Legacy score reducer from `src/index.tsx` -/

namespace IndexTsx

/-- `handleNoteHit` from `src/index.tsx`: every hit scores
`(100 + 50 if good) * multiplier` with the multiplier captured before the
event, increments the combo and recomputes the multiplier, health +2
capped at 100 (no branch distinguishing bad cuts beyond the points). -/
def handleNoteHit (s : AppTsx.ScoreState) (goodCut : Bool) : AppTsx.ScoreState :=
  { score := s.score + (if goodCut then 150 else 100) * s.multiplier
    combo := s.combo + 1
    multiplier := AppTsx.stepMultiplier (s.combo + 1)
    health := min 100 (s.health + 2) }

/-- `handleNoteMiss` from `src/index.tsx`: combo and multiplier reset,
health loses 15 floored at 0; the score is untouched. -/
def handleNoteMiss (s : AppTsx.ScoreState) : AppTsx.ScoreState :=
  { score := s.score
    combo := 0
    multiplier := 1
    health := if s.health - 15 ≤ 0 then 0 else s.health - 15 }

def stepEvent (s : AppTsx.ScoreState) : AppTsx.ScoreEvent → AppTsx.ScoreState
  | .noteHit g => handleNoteHit s g
  | .noteMiss => handleNoteMiss s

def runEvents (s : AppTsx.ScoreState) (evs : List AppTsx.ScoreEvent) : AppTsx.ScoreState :=
  evs.foldl stepEvent s

end IndexTsx

/-! ### Game-over transition machine

The `App` component of `src/index.tsx`: `handleNoteMiss` defers
`endGame(false)` through `setTimeout(..., 0)` when health is depleted, so
the state machine carries a count of queued `endGame` callbacks.  Hit and
miss events only reach the reducer while the session phase is `PLAYING`,
because `GameScene.useFrame` returns before emitting any event otherwise;
`runTimeout` runs one queued callback, which sets the phase to
`GAME_OVER` unconditionally. -/

namespace GameOver

/-- Session phase (`enum GameStatus`). -/
inductive Status where
  | loading
  | idle
  | playing
  | gameOver
  | victory
deriving DecidableEq, Repr

structure AppState where
  status : Status
  score : ℤ
  combo : ℤ
  multiplier : ℤ
  health : ℤ
  pendingEndGame : ℕ
deriving DecidableEq, Repr

inductive GAction where
  | noteHit (goodCut : Bool)
  | noteMiss
  | runTimeout
deriving DecidableEq, Repr

/-- One step of the composed system (`src/index.tsx` handlers). -/
def stepA (s : AppState) : GAction → AppState
  | .noteHit g =>
    if s.status = .playing then
      { s with
        score := s.score + (if g then 150 else 100) * s.multiplier
        combo := s.combo + 1
        multiplier := AppTsx.stepMultiplier (s.combo + 1)
        health := min 100 (s.health + 2) }
    else s
  | .noteMiss =>
    if s.status = .playing then
      if s.health - 15 ≤ 0 then
        { s with combo := 0, multiplier := 1, health := 0
                 pendingEndGame := s.pendingEndGame + 1 }
      else
        { s with combo := 0, multiplier := 1, health := s.health - 15 }
    else s
  | .runTimeout =>
    if s.pendingEndGame ≠ 0 then
      { s with status := .gameOver, pendingEndGame := s.pendingEndGame - 1 }
    else s

def runA (s : AppState) (acts : List GAction) : AppState :=
  acts.foldl stepA s

/-- Number of steps in the trace at which the phase changes to
`GAME_OVER` from some other phase. -/
def transCount (s : AppState) : List GAction → ℕ
  | [] => 0
  | a :: rest =>
    let s' := stepA s a
    (if s.status ≠ Status.gameOver ∧ s'.status = Status.gameOver then 1 else 0)
      + transCount s' rest

end GameOver

/-! ### Hand state estimator (`useMediaPipe` hook, `src/hooks/useMediaPipe.ts`
and the identical `processResults` in `src/index.tsx`) -/

namespace Estimator

/-- One MediaPipe landmark (normalized coordinates). -/
structure Pt3 where
  x : ℚ
  y : ℚ
  z : ℚ
deriving DecidableEq, Repr

/-- The 21 labeled landmarks of one detected hand. -/
def Landmarks : Type := Fin 21 → Pt3

/-- One per-hand detection: its landmark set and whether the handedness
classification's `categoryName` is `'Right'`. -/
structure Detection where
  landmarks : Landmarks
  isRight : Bool

/-- `mapHandToWorld`: fixed mapping from normalized 2D fingertip
coordinates to game-world space (horizontal mirror, vertical inversion,
depth as a function of height). -/
def mapHandToWorld (x y : ℚ) : Vec3 :=
  let GAME_X_RANGE : ℚ := 5
  let GAME_Y_RANGE : ℚ := 7/2
  let Y_OFFSET : ℚ := 4/5
  let worldX := (1/2 - x) * GAME_X_RANGE
  let worldY := (1 - y) * GAME_Y_RANGE - GAME_Y_RANGE / 2 + Y_OFFSET
  let worldZ := -(max 0 (worldY * (1/5)))
  ⟨worldX, max (1/10) worldY, worldZ⟩

/-- A finger is curled when its tip landmark's `y` exceeds its PIP
landmark's `y` by more than `0.02` (normalized image coordinates grow
downward). -/
def curledFinger (lm : Landmarks) (tip pip : Fin 21) : Bool :=
  decide ((lm pip).y + 1/50 < (lm tip).y)

/-- Number of curled fingers among index (8/6), middle (12/10),
ring (16/14) and pinky (20/18). -/
def curledCount (lm : Landmarks) : ℕ :=
  (if curledFinger lm 8 6 then 1 else 0)
    + (if curledFinger lm 12 10 then 1 else 0)
    + (if curledFinger lm 16 14 then 1 else 0)
    + (if curledFinger lm 20 18 then 1 else 0)

/-- `checkGrip` from `src/hooks/useMediaPipe.ts`: a hand counts as
gripping only when all four non-thumb fingers are curled
(`curledFingers === 4`). -/
def checkGrip (lm : Landmarks) : Bool :=
  decide (curledCount lm = 4)

/-- Per-frame scan over the detections: the index-fingertip (landmark 8)
is projected to world space and assigned to the detection's side, along
with its grip classification; later detections of the same side
overwrite earlier ones. -/
structure ScanResult where
  newLeft : Option Vec3
  newRight : Option Vec3
  leftGrip : Bool
  rightGrip : Bool

def scanDetections (frame : List Detection) : ScanResult :=
  frame.foldl
    (fun acc d =>
      let tip := d.landmarks 8
      let worldPos := mapHandToWorld tip.x tip.y
      let g := checkGrip d.landmarks
      if d.isRight then { acc with newRight := some worldPos, rightGrip := g }
      else { acc with newLeft := some worldPos, leftGrip := g })
    ⟨none, none, false, false⟩

/-- The mutable hand-tracking state (`handPositionsRef.current`). -/
structure HTState where
  left : Option Vec3
  right : Option Vec3
  lastLeft : Option Vec3
  lastRight : Option Vec3
  leftVelocity : Vec3
  rightVelocity : Vec3
  leftGripping : Bool
  rightGripping : Bool
  lastTimestamp : ℚ

/-- Initial hand-tracking state. -/
def initHT : HTState :=
  ⟨none, none, none, none, Vec3.zero, Vec3.zero, false, false, 0⟩

/-- `processResults`: `now` is the wall-clock timestamp in milliseconds.
A side with a detection is smoothed against the previous position with
weight `0.6` (a first detection takes the raw position) and the velocity
is the delta of smoothed positions over the elapsed seconds, updated only
when more than 1 ms elapsed; a side without a detection immediately loses
its position and grip, leaving velocity and last-position untouched. -/
def processResults (s : HTState) (frame : List Detection) (now : ℚ) : HTState :=
  let deltaTime := (now - s.lastTimestamp) / 1000
  let r := scanDetections frame
  let leftPart : Option Vec3 × Option Vec3 × Vec3 × Bool :=
    match r.newLeft with
    | some nl =>
      match s.left with
      | some prev =>
        let sm := lerpV prev nl (3/5)
        let vel :=
          if 1/1000 < deltaTime then Vec3.scale (1 / deltaTime) (sm.sub prev)
          else s.leftVelocity
        (some sm, some prev, vel, r.leftGrip)
      | none => (some nl, some nl, s.leftVelocity, r.leftGrip)
    | none => (none, s.lastLeft, s.leftVelocity, false)
  let rightPart : Option Vec3 × Option Vec3 × Vec3 × Bool :=
    match r.newRight with
    | some nr =>
      match s.right with
      | some prev =>
        let sm := lerpV prev nr (3/5)
        let vel :=
          if 1/1000 < deltaTime then Vec3.scale (1 / deltaTime) (sm.sub prev)
          else s.rightVelocity
        (some sm, some prev, vel, r.rightGrip)
      | none => (some nr, some nr, s.rightVelocity, r.rightGrip)
    | none => (none, s.lastRight, s.rightVelocity, false)
  { left := leftPart.1
    lastLeft := leftPart.2.1
    leftVelocity := leftPart.2.2.1
    leftGripping := leftPart.2.2.2
    right := rightPart.1
    lastRight := rightPart.2.1
    rightVelocity := rightPart.2.2.1
    rightGripping := rightPart.2.2.2
    lastTimestamp := now }

/-- Detection frame for the C8 counterexample: left hand, fingertip at
normalized `(0.5, 0.5)`. -/
def dL1 : Detection := ⟨fun _ => ⟨1/2, 1/2, 0⟩, false⟩

/-- Detection frame for the C8 counterexample: left hand, fingertip at
normalized `(0.3, 0.5)`. -/
def dL2 : Detection := ⟨fun _ => ⟨3/10, 1/2, 0⟩, false⟩

end Estimator

/-! ### Demo chart generators -/

/-- Comparator key of `notes.sort((a, b) => a.time - b.time)`. -/
def timeLE (a b : NoteData) : Prop := a.time ≤ b.time

instance : DecidableRel timeLE := fun a b => inferInstanceAs (Decidable (a.time ≤ b.time))

instance : IsTotal NoteData timeLE := ⟨fun a b => le_total a.time b.time⟩

instance : IsTrans NoteData timeLE := ⟨fun _ _ _ h1 h2 => le_trans h1 h2⟩

/-- `notes.sort((a, b) => a.time - b.time)`: a sort of the note array by
scheduled time. -/
def sortByTime (l : List NoteData) : List NoteData := List.insertionSort timeLE l

namespace IndexTsx

/-- Notes pushed at beat `i` (with next fresh id `idc`) by the pattern
generator of `generateDemoChart` in `src/index.tsx`. -/
def demoNotesAt (i idc : ℕ) : List NoteData :=
  let time : ℚ := (i : ℚ) * BEAT_TIME
  let pattern := (i / 16) % 3
  if pattern = 0 then
    if i % 4 = 0 then
      [{ id := idc, time := time, lineIndex := 1, lineLayer := 0
         type := .left, cutDirection := .any }]
    else
      [{ id := idc, time := time, lineIndex := 2, lineLayer := 0
         type := .right, cutDirection := .any }]
  else if pattern = 1 then
    if i % 8 = 0 then
      [{ id := idc, time := time, lineIndex := 0, lineLayer := 1
         type := .left, cutDirection := .any },
       { id := idc + 1, time := time, lineIndex := 3, lineLayer := 1
         type := .right, cutDirection := .any }]
    else []
  else
    [{ id := idc, time := time, lineIndex := 1, lineLayer := 0
       type := .left, cutDirection := .any },
     { id := idc + 1, time := time + BEAT_TIME, lineIndex := 2, lineLayer := 0
       type := .right, cutDirection := .any }]

def genLoop : List ℕ → ℕ → List NoteData
  | [], _ => []
  | i :: rest, idc =>
    let ns := demoNotesAt i idc
    ns ++ genLoop rest (idc + ns.length)

/-- The beat indices of the loop `for (let i = 4; i < 200; i += 2)`. -/
def beatIndices : List ℕ := (List.range 98).map (fun k => 4 + 2 * k)

/-- `generateDemoChart` from `src/index.tsx`. -/
def generateDemoChart : List NoteData := sortByTime (genLoop beatIndices 0)

end IndexTsx

namespace ConstantsTs

def NOTE_SPEED : ℚ := 4
def BEAT_TIME : ℚ := 60 / 140

/-- Body of `generateDemoChart` in `src/constants.ts`: beats `12 ≤ i < 400`;
off-beats (`i % 4 ≠ 0`) are skipped without consuming randomness; on-beats
draw one value to decide whether to skip and four more for hand, lane,
layer and grip.  `rand k` is the `k`-th value drawn from `Math.random()`. -/
def genLoop (rand : ℕ → ℚ) : List ℕ → ℕ → ℕ → List NoteData
  | [], _, _ => []
  | i :: rest, k, idc =>
    if i % 4 ≠ 0 then genLoop rand rest k idc
    else if 3/5 < rand k then genLoop rand rest (k + 1) idc
    else
      { id := idc
        time := (i : ℚ) * BEAT_TIME
        lineIndex := (⌊rand (k + 2) * 4⌋).toNat
        lineLayer := (⌊rand (k + 3) * 3⌋).toNat
        type := if 1/2 < rand (k + 1) then .left else .right
        cutDirection := .any
        requiresGrip := decide (7/10 < rand (k + 4)) }
        :: genLoop rand rest (k + 5) (idc + 1)

/-- The beat indices of the loop `for (let i = 12; i < totalBeats; i++)`
with `totalBeats = 400`. -/
def beatIndices : List ℕ := (List.range 388).map (fun k => 12 + k)

/-- `generateDemoChart` from `src/constants.ts`, parametrized by the
stream of `Math.random()` draws. -/
def generateDemoChart (rand : ℕ → ℚ) : List NoteData :=
  sortByTime (genLoop rand beatIndices 0 0)

end ConstantsTs

/-! ## Helper lemmas -/

/-- The state invariant maintained by both score reducers. -/
def ScoreInv (s : AppTsx.ScoreState) : Prop :=
  0 ≤ s.score ∧ 0 ≤ s.health ∧ s.health ≤ 100 ∧ 1 ≤ s.multiplier

/-- A note scheduled at `t = 2` on lane 0, layer 0 for the left hand. -/
def noteW : NoteData :=
  { id := 0, time := 2, lineIndex := 0, lineLayer := 0
    type := .left, cutDirection := .any }

/-- A landmark set with index, middle and ring clearly curled and the
pinky straight. -/
def lmThreeCurled : Estimator.Landmarks := fun i =>
  if i.val = 8 ∨ i.val = 12 ∨ i.val = 16 then ⟨0, 1/10, 0⟩ else ⟨0, 0, 0⟩

/-- Time-orderedness of a note list, stated over index pairs. -/
def TimeOrdered (l : List NoteData) : Prop :=
  ∀ (i j : ℕ) (hij : i ≤ j) (hj : j < l.length),
    (l.get ⟨i, lt_of_le_of_lt hij hj⟩).time ≤ (l.get ⟨j, hj⟩).time

/-- A note already marked hit, used to witness C3. -/
def hitNoteW : NoteData :=
  { id := 7, time := 1, lineIndex := 1, lineLayer := 0
    type := .right, cutDirection := .any, hit := true }

/-- A left hand resting exactly on lane 0, layer 0 at the player line. -/
def handsW : HandPositions :=
  { left := some ⟨-6/5, 4/5, 0⟩
    right := none
    leftVelocity := Vec3.zero
    rightVelocity := Vec3.zero
    leftGripping := false
    rightGripping := false }

/-- First note of the C5 counterexample pair, scheduled at `t = 2`. -/
def n0c : NoteData :=
  { id := 0, time := 2, lineIndex := 0, lineLayer := 0
    type := .left, cutDirection := .any }

/-- Second note of the C5 counterexample pair, scheduled at `t = 2.1`. -/
def n1c : NoteData :=
  { id := 1, time := 21/10, lineIndex := 0, lineLayer := 0
    type := .left, cutDirection := .any }

/-- A playing state with low health, witnessing C7. -/
def lowHealthState : GameOver.AppState :=
  { status := .playing, score := 0, combo := 0, multiplier := 1
    health := 10, pendingEndGame := 0 }

theorem stepMultiplier_ge_one (c : ℤ) : 1 ≤ AppTsx.stepMultiplier c := by
  unfold AppTsx.stepMultiplier
  split_ifs <;> omega

theorem appTsx_inv_step (s : AppTsx.ScoreState) (e : AppTsx.ScoreEvent) :
    ScoreInv s → ScoreInv (AppTsx.stepEvent s e) := by
  rintro ⟨h1, h2, h3, h4⟩
  have hm := stepMultiplier_ge_one (s.combo + 1)
  cases e with
  | noteHit g =>
    cases g <;>
      simp only [AppTsx.stepEvent, AppTsx.handleNoteHit, ScoreInv, Bool.false_eq_true,
        if_false, if_true, Bool.true_eq_false] <;>
      refine ⟨by omega, by omega, by omega, by omega⟩
  | noteMiss =>
    simp only [AppTsx.stepEvent, AppTsx.handleNoteMiss, ScoreInv]
    split_ifs <;> refine ⟨by omega, by omega, by omega, by omega⟩

theorem appTsx_inv_run (evs : List AppTsx.ScoreEvent) :
    ∀ s, ScoreInv s → ScoreInv (AppTsx.runEvents s evs) := by
  induction evs with
  | nil => intro s hs; simpa [AppTsx.runEvents] using hs
  | cons e rest ih =>
    intro s hs
    simpa [AppTsx.runEvents, List.foldl_cons] using ih _ (appTsx_inv_step s e hs)

theorem indexTsx_inv_step (s : AppTsx.ScoreState) (e : AppTsx.ScoreEvent) :
    ScoreInv s → ScoreInv (IndexTsx.stepEvent s e) := by
  rintro ⟨h1, h2, h3, h4⟩
  have hm := stepMultiplier_ge_one (s.combo + 1)
  cases e with
  | noteHit g =>
    cases g <;>
      simp only [IndexTsx.stepEvent, IndexTsx.handleNoteHit, ScoreInv, Bool.false_eq_true,
        if_false, if_true, Bool.true_eq_false] <;>
      refine ⟨by omega, by omega, by omega, by omega⟩
  | noteMiss =>
    simp only [IndexTsx.stepEvent, IndexTsx.handleNoteMiss, ScoreInv]
    split_ifs <;> refine ⟨by omega, by omega, by omega, by omega⟩

theorem indexTsx_inv_run (evs : List AppTsx.ScoreEvent) :
    ∀ s, ScoreInv s → ScoreInv (IndexTsx.runEvents s evs) := by
  induction evs with
  | nil => intro s hs; simpa [IndexTsx.runEvents] using hs
  | cons e rest ih =>
    intro s hs
    simpa [IndexTsx.runEvents, List.foldl_cons] using ih _ (indexTsx_inv_step s e hs)

/-! ## Claim theorems -/

/-- C2: For every "bad" hit event and every miss event processed by the
score reducer (`handleNoteHit` with `goodCut = false` and `handleNoteMiss`
in `src/App.tsx`), the resulting state has combo 0 and multiplier 1, the
score decreased by the fixed penalty 50 clamped at 0, and the health
decreased by 5 for a bad hit and by the larger 15 for a miss, both
clamped at 0; in particular a bad hit never increments the combo or adds
points. -/
theorem bad_hit_and_miss_penalties (s : AppTsx.ScoreState) :
    (AppTsx.handleNoteHit s false).combo = 0 ∧
    (AppTsx.handleNoteHit s false).multiplier = 1 ∧
    (AppTsx.handleNoteHit s false).score = max 0 (s.score - 50) ∧
    (AppTsx.handleNoteHit s false).health = max 0 (s.health - 5) ∧
    (AppTsx.handleNoteMiss s).combo = 0 ∧
    (AppTsx.handleNoteMiss s).multiplier = 1 ∧
    (AppTsx.handleNoteMiss s).score = max 0 (s.score - 50) ∧
    (AppTsx.handleNoteMiss s).health = max 0 (s.health - 15) ∧
    (AppTsx.handleNoteHit s false).score ≤ max 0 s.score ∧
    (AppTsx.handleNoteHit s false).combo ≤ max 0 s.combo := by
  refine ⟨rfl, rfl, rfl, rfl, rfl, rfl, rfl, ?_, ?_, ?_⟩
  · simp only [AppTsx.handleNoteMiss]
    split_ifs <;> omega
  · simp only [AppTsx.handleNoteHit, Bool.false_eq_true, if_false]
    omega
  · simp only [AppTsx.handleNoteHit, Bool.false_eq_true, if_false]
    omega

/-- C6: For every sequence of hit and miss events processed from the
initial session state, health stays within `[0, 100]` and score stays
`≥ 0` after every reducer step — for the reducer of `src/App.tsx` and for
the legacy reducer of `src/index.tsx` alike. -/
theorem health_score_clamped (evs : List AppTsx.ScoreEvent) :
    (0 ≤ (AppTsx.runEvents AppTsx.initialState evs).health ∧
     (AppTsx.runEvents AppTsx.initialState evs).health ≤ 100 ∧
     0 ≤ (AppTsx.runEvents AppTsx.initialState evs).score) ∧
    (0 ≤ (IndexTsx.runEvents AppTsx.initialState evs).health ∧
     (IndexTsx.runEvents AppTsx.initialState evs).health ≤ 100 ∧
     0 ≤ (IndexTsx.runEvents AppTsx.initialState evs).score) := by
  have h0 : ScoreInv AppTsx.initialState := by
    refine ⟨?_, ?_, ?_, ?_⟩ <;> simp [AppTsx.initialState, ScoreInv]
  obtain ⟨a1, a2, a3, -⟩ := appTsx_inv_run evs AppTsx.initialState h0
  obtain ⟨b1, b2, b3, -⟩ := indexTsx_inv_run evs AppTsx.initialState h0
  exact ⟨⟨a2, a3, a1⟩, ⟨b2, b3, b1⟩⟩

/-- C9 counterexample: with exactly three of the four non-thumb fingers
curled — a majority — the gameplay grip classifier still returns
`false`. -/
theorem checkGrip_majority_counterexample :
    Estimator.curledCount lmThreeCurled = 3 ∧
    Estimator.checkGrip lmThreeCurled = false := by
  have v6 : ((6 : Fin 21) : ℕ) = 6 := rfl
  have v8 : ((8 : Fin 21) : ℕ) = 8 := rfl
  have v10 : ((10 : Fin 21) : ℕ) = 10 := rfl
  have v12 : ((12 : Fin 21) : ℕ) = 12 := rfl
  have v14 : ((14 : Fin 21) : ℕ) = 14 := rfl
  have v16 : ((16 : Fin 21) : ℕ) = 16 := rfl
  have v18 : ((18 : Fin 21) : ℕ) = 18 := rfl
  have v20 : ((20 : Fin 21) : ℕ) = 20 := rfl
  have h8 : Estimator.curledFinger lmThreeCurled 8 6 = true := by
    simp only [Estimator.curledFinger, lmThreeCurled, decide_eq_true_eq, v6, v8]
    norm_num
  have h12 : Estimator.curledFinger lmThreeCurled 12 10 = true := by
    simp only [Estimator.curledFinger, lmThreeCurled, decide_eq_true_eq, v10, v12]
    norm_num
  have h16 : Estimator.curledFinger lmThreeCurled 16 14 = true := by
    simp only [Estimator.curledFinger, lmThreeCurled, decide_eq_true_eq, v14, v16]
    norm_num
  have h20 : Estimator.curledFinger lmThreeCurled 20 18 = false := by
    simp only [Estimator.curledFinger, lmThreeCurled, decide_eq_false_iff_not, v18, v20]
    norm_num
  have hc : Estimator.curledCount lmThreeCurled = 3 := by
    simp [Estimator.curledCount, h8, h12, h16, h20]
  refine ⟨hc, ?_⟩
  simp [Estimator.checkGrip, hc]

/-- C9 amended: the gameplay grip classifier (`checkGrip` in
`src/hooks/useMediaPipe.ts`) returns `true` exactly when ALL FOUR
non-thumb fingers are curled, where a finger counts as curled when its
fingertip landmark's `y` exceeds its middle-joint landmark's `y` by the
margin `0.02`. -/
theorem checkGrip_iff_all_four (lm : Estimator.Landmarks) :
    Estimator.checkGrip lm = true ↔
      (Estimator.curledFinger lm 8 6 = true ∧ Estimator.curledFinger lm 12 10 = true ∧
       Estimator.curledFinger lm 16 14 = true ∧ Estimator.curledFinger lm 20 18 = true) := by
  unfold Estimator.checkGrip Estimator.curledCount
  cases Estimator.curledFinger lm 8 6 <;>
    cases Estimator.curledFinger lm 12 10 <;>
    cases Estimator.curledFinger lm 16 14 <;>
    cases Estimator.curledFinger lm 20 18 <;>
    simp

theorem timeOrdered_sortByTime (l : List NoteData) : TimeOrdered (sortByTime l) := by
  intro i j hij hj
  rcases eq_or_lt_of_le hij with rfl | h
  · exact le_refl _
  · exact (List.sorted_insertionSort timeLE l).rel_get_of_lt (Fin.mk_lt_mk.mpr h)

/-- C10: both demo chart generators return a note array sorted by
scheduled time — `generateDemoChart` of `src/index.tsx` and, for every
stream of `Math.random()` draws, `generateDemoChart` of
`src/constants.ts`. -/
theorem demo_charts_time_sorted :
    TimeOrdered IndexTsx.generateDemoChart ∧
    ∀ rand : ℕ → ℚ, TimeOrdered (ConstantsTs.generateDemoChart rand) :=
  ⟨timeOrdered_sortByTime _, fun _ => timeOrdered_sortByTime _⟩

/-- Witness for C10 at concrete indices of the `src/index.tsx` chart. -/
theorem demo_charts_time_sorted_witness :
    ∃ h : 1 < IndexTsx.generateDemoChart.length,
      (IndexTsx.generateDemoChart.get ⟨0, lt_of_le_of_lt (Nat.zero_le 1) h⟩).time ≤
        (IndexTsx.generateDemoChart.get ⟨1, h⟩).time := by
  have hlen : IndexTsx.generateDemoChart.length =
      (IndexTsx.genLoop IndexTsx.beatIndices 0).length := by
    unfold IndexTsx.generateDemoChart sortByTime
    exact List.length_insertionSort _ _
  have h : 1 < IndexTsx.generateDemoChart.length := by
    rw [hlen]; decide
  exact ⟨h, demo_charts_time_sorted.1 0 1 (Nat.zero_le 1) h⟩

/-- C1: during the per-tick pass, an active unresolved note is resolved
as a hit exactly when its derived depth lies strictly within the
judgement window `(PLAYER_Z - 1.5, PLAYER_Z + 1.0)`, its required hand has
a defined position, and the squared distance from that hand to the note's
lane/layer coordinates at the derived depth is below the squared hit
radius `0.8²`; the outcome is "good" iff either the required direction is
"any" and the squared hand speed is at least `1.5²`, or the direction is
specific and the normalized velocity's dot product with the direction
unit vector is at least `0.3` (stated via `normDotLt … = false`) and the
squared speed is at least `1.5²` — otherwise "bad". -/
theorem hit_judgement (hands : HandPositions) (t : ℚ) (note : NoteData)
    (hh : note.hit = false) (hm : note.missed = false) :
    ((∃ g, IndexTsx.judgeNote hands t note = .hit g) ↔
      (IndexTsx.PLAYER_Z - 3/2 < IndexTsx.depthAt t note ∧
       IndexTsx.depthAt t note < IndexTsx.PLAYER_Z + 1 ∧
       ∃ p, handFor hands note.type = some p ∧
         distSq p (IndexTsx.noteWorldPos note (IndexTsx.depthAt t note)) < (4/5) ^ 2)) ∧
    (∀ g, IndexTsx.judgeNote hands t note = .hit g →
      (g = true ↔
        ((note.cutDirection = .any ∧ (3/2) ^ 2 ≤ normSq (velFor hands note.type)) ∨
         (note.cutDirection ≠ .any ∧
          IndexTsx.normDotLt (velFor hands note.type)
            (IndexTsx.directionVector note.cutDirection) (3/10) = false ∧
          (3/2) ^ 2 ≤ normSq (velFor hands note.type))))) := by
  have hgood : ∀ v, IndexTsx.goodCutEval note v = true ↔
      ((note.cutDirection = .any ∧ (3/2) ^ 2 ≤ normSq v) ∨
       (note.cutDirection ≠ .any ∧
        IndexTsx.normDotLt v (IndexTsx.directionVector note.cutDirection) (3/10) = false ∧
        (3/2) ^ 2 ≤ normSq v)) := by
    intro v
    by_cases hdir : note.cutDirection = CutDirection.any
    · simp only [IndexTsx.goodCutEval, hdir, ne_eq, not_true_eq_false, if_false,
        Bool.not_eq_true', IndexTsx.speedLt, decide_eq_false_iff_not, not_lt]
      tauto
    · simp only [IndexTsx.goodCutEval, ne_eq, hdir, not_false_eq_true, if_true,
        Bool.not_eq_true', Bool.or_eq_false_iff, IndexTsx.speedLt,
        decide_eq_false_iff_not, not_lt]
      tauto
  unfold IndexTsx.judgeNote
  rw [hh, hm]
  simp only [Bool.or_self, Bool.false_eq_true, if_false]
  by_cases hmiss : IndexTsx.MISS_Z < IndexTsx.depthAt t note
  · rw [if_pos hmiss]
    constructor
    · constructor
      · rintro ⟨g, hg⟩; exact absurd hg (by simp)
      · rintro ⟨h1, h2, -⟩
        have : IndexTsx.MISS_Z < IndexTsx.PLAYER_Z + 1 := lt_trans hmiss h2
        norm_num [IndexTsx.MISS_Z, IndexTsx.PLAYER_Z] at this
    · intro g hg; exact absurd hg (by simp)
  · rw [if_neg hmiss]
    by_cases hwin : IndexTsx.PLAYER_Z - 3/2 < IndexTsx.depthAt t note ∧
        IndexTsx.depthAt t note < IndexTsx.PLAYER_Z + 1
    · rw [if_pos hwin]
      rcases hf : handFor hands note.type with _ | p
      · constructor
        · constructor
          · rintro ⟨g, hg⟩; exact absurd hg (by simp)
          · rintro ⟨-, -, p, hp, -⟩; exact absurd hp (by simp)
        · intro g hg; exact absurd hg (by simp)
      · by_cases hdist : distSq p (IndexTsx.noteWorldPos note (IndexTsx.depthAt t note)) <
            (4/5) ^ 2
        · simp only []
          rw [if_pos hdist]
          refine ⟨⟨fun _ => ⟨hwin.1, hwin.2, p, rfl, hdist⟩, fun _ => ⟨_, rfl⟩⟩, ?_⟩
          rintro g hg
          have : g = IndexTsx.goodCutEval note (velFor hands note.type) := by
            cases hg; rfl
          rw [this]
          exact hgood _
        · simp only []
          rw [if_neg hdist]
          constructor
          · constructor
            · rintro ⟨g, hg⟩; exact absurd hg (by simp)
            · rintro ⟨-, -, q, hq, hd⟩
              cases hq
              exact absurd hd hdist
          · intro g hg; exact absurd hg (by simp)
    · rw [if_neg hwin]
      constructor
      · constructor
        · rintro ⟨g, hg⟩; exact absurd hg (by simp)
        · rintro ⟨h1, h2, -⟩; exact absurd ⟨h1, h2⟩ hwin
      · intro g hg; exact absurd hg (by simp)

theorem judgeNote_of_hit (hands : HandPositions) (t : ℚ) (note : NoteData)
    (h : note.hit = true) : IndexTsx.judgeNote hands t note = .skip := by
  unfold IndexTsx.judgeNote
  rw [h]
  simp

theorem judgeNote_of_missed (hands : HandPositions) (t : ℚ) (note : NoteData)
    (h : note.missed = true) : IndexTsx.judgeNote hands t note = .skip := by
  unfold IndexTsx.judgeNote
  rw [h]
  simp

theorem applyJudge_of_hit (hands : HandPositions) (t : ℚ) (note : NoteData)
    (h : note.hit = true) : IndexTsx.applyJudge hands t note = note := by
  unfold IndexTsx.applyJudge
  rw [judgeNote_of_hit hands t note h]

theorem applyJudge_of_missed (hands : HandPositions) (t : ℚ) (note : NoteData)
    (h : note.missed = true) : IndexTsx.applyJudge hands t note = note := by
  unfold IndexTsx.applyJudge
  rw [judgeNote_of_missed hands t note h]

theorem applyJudge_not_both (hands : HandPositions) (t : ℚ) (note : NoteData)
    (h : ¬(note.hit = true ∧ note.missed = true)) :
    ¬((IndexTsx.applyJudge hands t note).hit = true ∧
      (IndexTsx.applyJudge hands t note).missed = true) := by
  rcases hh : note.hit with _ | _
  · rcases hm : note.missed with _ | _
    · unfold IndexTsx.applyJudge
      rcases hj : IndexTsx.judgeNote hands t note with _ | _ | g <;> simp [hh, hm]
    · rw [applyJudge_of_missed hands t note hm]
      simp [hh]
  · rw [applyJudge_of_hit hands t note hh]
    intro hc
    exact h ⟨hh, hc.2⟩

theorem runTicksNote_of_hit (ticks : List (HandPositions × ℚ)) (note : NoteData)
    (h : note.hit = true) : IndexTsx.runTicksNote ticks note = note := by
  induction ticks with
  | nil => rfl
  | cons p rest ih =>
    unfold IndexTsx.runTicksNote
    rw [List.foldl_cons, applyJudge_of_hit p.1 p.2 note h]
    exact ih

theorem runTicksNote_of_missed (ticks : List (HandPositions × ℚ)) (note : NoteData)
    (h : note.missed = true) : IndexTsx.runTicksNote ticks note = note := by
  induction ticks with
  | nil => rfl
  | cons p rest ih =>
    unfold IndexTsx.runTicksNote
    rw [List.foldl_cons, applyJudge_of_missed p.1 p.2 note h]
    exact ih

/-- C3: terminal states are assigned at most once.  A note already marked
hit (or missed) is left untouched by the per-note judgement of any tick,
and hence by any sequence of ticks; a note that is not in the impossible
both-terminal state never enters it; and for an unresolved note the
miss-expiry test is decided before the hit test, so a note past the miss
line is judged `miss` regardless of the hands. -/
theorem no_double_resolution (hands : HandPositions) (t : ℚ) (note : NoteData) :
    (note.hit = true → IndexTsx.applyJudge hands t note = note) ∧
    (note.missed = true → IndexTsx.applyJudge hands t note = note) ∧
    (¬(note.hit = true ∧ note.missed = true) →
      ¬((IndexTsx.applyJudge hands t note).hit = true ∧
        (IndexTsx.applyJudge hands t note).missed = true)) ∧
    (note.hit = false → note.missed = false →
      IndexTsx.MISS_Z < IndexTsx.depthAt t note →
      IndexTsx.judgeNote hands t note = .miss) ∧
    (∀ ticks : List (HandPositions × ℚ), note.hit = true →
      IndexTsx.runTicksNote ticks note = note) ∧
    (∀ ticks : List (HandPositions × ℚ), note.missed = true →
      IndexTsx.runTicksNote ticks note = note) := by
  refine ⟨applyJudge_of_hit hands t note, applyJudge_of_missed hands t note,
    applyJudge_not_both hands t note, ?_,
    fun ticks h => runTicksNote_of_hit ticks note h,
    fun ticks h => runTicksNote_of_missed ticks note h⟩
  intro hh hm hmiss
  unfold IndexTsx.judgeNote
  rw [hh, hm]
  simp only [Bool.or_self, Bool.false_eq_true, if_false]
  rw [if_pos hmiss]

/-- Witness for C3: a hit note is untouched by a later tick and never
reaches the both-terminal state. -/
theorem no_double_resolution_witness :
    IndexTsx.applyJudge
      ⟨none, none, Vec3.zero, Vec3.zero, false, false⟩ 9 hitNoteW = hitNoteW ∧
    ¬((IndexTsx.applyJudge
        ⟨none, none, Vec3.zero, Vec3.zero, false, false⟩ 9 hitNoteW).hit = true ∧
      (IndexTsx.applyJudge
        ⟨none, none, Vec3.zero, Vec3.zero, false, false⟩ 9 hitNoteW).missed = true) :=
  ⟨(no_double_resolution ⟨none, none, Vec3.zero, Vec3.zero, false, false⟩ 9 hitNoteW).1 rfl,
   (no_double_resolution ⟨none, none, Vec3.zero, Vec3.zero, false, false⟩ 9 hitNoteW).2.2.1
     (by simp [hitNoteW])⟩

/-- C5 amended: the miss-expiry / hit-testing pass iterates over the
active notes from the LAST index down to the first (so that `splice` is
safe during iteration), hence the events of a tick are exactly the
per-note events of the REVERSED active list in order: when several notes
resolve in one tick, their events are emitted in reverse chart order.  -/
theorem tick_events_reverse (hands : HandPositions) (t : ℚ) (notes : List NoteData) :
    (IndexTsx.tickGo hands t notes).2 =
      notes.reverse.filterMap (IndexTsx.eventOf hands t) := by
  induction notes with
  | nil => rfl
  | cons n rest ih =>
    rcases hj : IndexTsx.judgeNote hands t n with _ | _ | g <;>
      simp [IndexTsx.tickGo, IndexTsx.eventOf, hj, ih, List.filterMap_append]

/-- C5 counterexample: at `t = 2.05` both notes of the active list
`[n0c, n1c]` resolve as hits in the same tick, and the emitted events
carry the LATER-scheduled note first — not chart/time order. -/
theorem tick_events_not_chart_order :
    n0c.time < n1c.time ∧
    (IndexTsx.tickGo handsW (41/20) [n0c, n1c]).2 =
      [IndexTsx.GameEvent.noteHit { n1c with hit := true, hitTime := some (41/20) } false,
       IndexTsx.GameEvent.noteHit { n0c with hit := true, hitTime := some (41/20) } false] := by
  have hj0 : IndexTsx.judgeNote handsW (41/20) n0c = .hit false := by
    unfold IndexTsx.judgeNote
    rw [show n0c.hit = false from rfl, show n0c.missed = false from rfl]
    simp only [Bool.or_self, Bool.false_eq_true, if_false]
    rw [if_neg (by norm_num [IndexTsx.depthAt, IndexTsx.MISS_Z, IndexTsx.PLAYER_Z,
          IndexTsx.NOTE_SPEED, n0c]),
        if_pos (by constructor <;> norm_num [IndexTsx.depthAt, IndexTsx.PLAYER_Z,
          IndexTsx.NOTE_SPEED, n0c])]
    show (if distSq ⟨-6/5, 4/5, 0⟩
        (IndexTsx.noteWorldPos n0c (IndexTsx.depthAt (41/20) n0c)) < (4/5) ^ 2 then
        IndexTsx.JudgeResult.hit (IndexTsx.goodCutEval n0c (velFor handsW n0c.type))
      else IndexTsx.JudgeResult.skip) = .hit false
    rw [if_pos (by norm_num [distSq, normSq, dot, Vec3.sub, IndexTsx.noteWorldPos,
          IndexTsx.depthAt, IndexTsx.PLAYER_Z, IndexTsx.NOTE_SPEED,
          IndexTsx.LANE_X_POSITIONS, IndexTsx.LAYER_Y_POSITIONS, IndexTsx.LANE_WIDTH, n0c])]
    have : IndexTsx.goodCutEval n0c (velFor handsW n0c.type) = false := by
      simp only [IndexTsx.goodCutEval, n0c, IndexTsx.speedLt, handsW, velFor]
      norm_num [normSq, dot, Vec3.zero]
    rw [this]
  have hj1 : IndexTsx.judgeNote handsW (41/20) n1c = .hit false := by
    unfold IndexTsx.judgeNote
    rw [show n1c.hit = false from rfl, show n1c.missed = false from rfl]
    simp only [Bool.or_self, Bool.false_eq_true, if_false]
    rw [if_neg (by norm_num [IndexTsx.depthAt, IndexTsx.MISS_Z, IndexTsx.PLAYER_Z,
          IndexTsx.NOTE_SPEED, n1c]),
        if_pos (by constructor <;> norm_num [IndexTsx.depthAt, IndexTsx.PLAYER_Z,
          IndexTsx.NOTE_SPEED, n1c])]
    show (if distSq ⟨-6/5, 4/5, 0⟩
        (IndexTsx.noteWorldPos n1c (IndexTsx.depthAt (41/20) n1c)) < (4/5) ^ 2 then
        IndexTsx.JudgeResult.hit (IndexTsx.goodCutEval n1c (velFor handsW n1c.type))
      else IndexTsx.JudgeResult.skip) = .hit false
    rw [if_pos (by norm_num [distSq, normSq, dot, Vec3.sub, IndexTsx.noteWorldPos,
          IndexTsx.depthAt, IndexTsx.PLAYER_Z, IndexTsx.NOTE_SPEED,
          IndexTsx.LANE_X_POSITIONS, IndexTsx.LAYER_Y_POSITIONS, IndexTsx.LANE_WIDTH, n1c])]
    have : IndexTsx.goodCutEval n1c (velFor handsW n1c.type) = false := by
      simp only [IndexTsx.goodCutEval, n1c, IndexTsx.speedLt, handsW, velFor]
      norm_num [normSq, dot, Vec3.zero]
    rw [this]
  constructor
  · norm_num [n0c, n1c]
  · simp [IndexTsx.tickGo, hj0, hj1]

theorem scan_all_right (frame : List Estimator.Detection)
    (h : ∀ d ∈ frame, d.isRight = true) :
    (Estimator.scanDetections frame).newLeft = none ∧
    (Estimator.scanDetections frame).leftGrip = false := by
  have H : ∀ acc : Estimator.ScanResult, acc.newLeft = none → acc.leftGrip = false →
      ((frame.foldl (fun acc d =>
          let tip := d.landmarks 8
          let worldPos := Estimator.mapHandToWorld tip.x tip.y
          let g := Estimator.checkGrip d.landmarks
          if d.isRight then { acc with newRight := some worldPos, rightGrip := g }
          else { acc with newLeft := some worldPos, leftGrip := g }) acc).newLeft = none ∧
        (frame.foldl (fun acc d =>
          let tip := d.landmarks 8
          let worldPos := Estimator.mapHandToWorld tip.x tip.y
          let g := Estimator.checkGrip d.landmarks
          if d.isRight then { acc with newRight := some worldPos, rightGrip := g }
          else { acc with newLeft := some worldPos, leftGrip := g }) acc).leftGrip = false) := by
    induction frame with
    | nil => intro acc h1 h2; exact ⟨h1, h2⟩
    | cons d rest ih =>
      intro acc h1 h2
      rw [List.foldl_cons]
      have hd : d.isRight = true := h d (List.mem_cons_self d rest)
      refine ih (fun e he => h e (List.mem_cons_of_mem d he)) _ ?_ ?_ <;>
        simp [hd, h1, h2]
  exact H ⟨none, none, false, false⟩ rfl rfl

theorem scan_all_left (frame : List Estimator.Detection)
    (h : ∀ d ∈ frame, d.isRight = false) :
    (Estimator.scanDetections frame).newRight = none ∧
    (Estimator.scanDetections frame).rightGrip = false := by
  have H : ∀ acc : Estimator.ScanResult, acc.newRight = none → acc.rightGrip = false →
      ((frame.foldl (fun acc d =>
          let tip := d.landmarks 8
          let worldPos := Estimator.mapHandToWorld tip.x tip.y
          let g := Estimator.checkGrip d.landmarks
          if d.isRight then { acc with newRight := some worldPos, rightGrip := g }
          else { acc with newLeft := some worldPos, leftGrip := g }) acc).newRight = none ∧
        (frame.foldl (fun acc d =>
          let tip := d.landmarks 8
          let worldPos := Estimator.mapHandToWorld tip.x tip.y
          let g := Estimator.checkGrip d.landmarks
          if d.isRight then { acc with newRight := some worldPos, rightGrip := g }
          else { acc with newLeft := some worldPos, leftGrip := g }) acc).rightGrip = false) := by
    induction frame with
    | nil => intro acc h1 h2; exact ⟨h1, h2⟩
    | cons d rest ih =>
      intro acc h1 h2
      rw [List.foldl_cons]
      have hd : d.isRight = false := h d (List.mem_cons_self d rest)
      refine ih (fun e he => h e (List.mem_cons_of_mem d he)) _ ?_ ?_ <;>
        simp [hd, h1, h2]
  exact H ⟨none, none, false, false⟩ rfl rfl

/-- C8 amended: when a processed detection frame contains no detection
for a side, the resulting hand state has that side's position set to
absent and grip set to false immediately (no smoothing or hold-over);
the side's velocity field, however, is left UNCHANGED — it retains its
last computed value for any number of consecutive absent samples and is
never reset to zero. -/
theorem absence_immediate (s : Estimator.HTState)
    (frame : List Estimator.Detection) (now : ℚ) :
    ((∀ d ∈ frame, d.isRight = true) →
      (Estimator.processResults s frame now).left = none ∧
      (Estimator.processResults s frame now).leftGripping = false ∧
      (Estimator.processResults s frame now).leftVelocity = s.leftVelocity) ∧
    ((∀ d ∈ frame, d.isRight = false) →
      (Estimator.processResults s frame now).right = none ∧
      (Estimator.processResults s frame now).rightGripping = false ∧
      (Estimator.processResults s frame now).rightVelocity = s.rightVelocity) := by
  constructor
  · intro h
    obtain ⟨h1, -⟩ := scan_all_right frame h
    unfold Estimator.processResults
    rw [show Estimator.scanDetections frame =
        { Estimator.scanDetections frame with newLeft := none } from by
      cases hs : Estimator.scanDetections frame
      simp_all]
    exact ⟨rfl, rfl, rfl⟩
  · intro h
    obtain ⟨h1, -⟩ := scan_all_left frame h
    unfold Estimator.processResults
    rw [show Estimator.scanDetections frame =
        { Estimator.scanDetections frame with newRight := none } from by
      cases hs : Estimator.scanDetections frame
      simp_all]
    exact ⟨rfl, rfl, rfl⟩

/-- Witness for C8's amended theorem on the empty frame. -/
theorem absence_immediate_witness :
    (Estimator.processResults Estimator.initHT [] 5).left = none ∧
    (Estimator.processResults Estimator.initHT [] 5).leftGripping = false ∧
    (Estimator.processResults Estimator.initHT [] 5).leftVelocity =
      Estimator.initHT.leftVelocity :=
  (absence_immediate Estimator.initHT [] 5).1 (by simp)

/-- C8 counterexample: after two detections of the left hand (producing a
nonzero velocity) followed by two consecutive frames with no left
detection, the position is absent but the velocity is still the old
nonzero vector, not zero. -/
theorem velocity_not_zeroed_on_absence :
    (Estimator.processResults
      (Estimator.processResults
        (Estimator.processResults
          (Estimator.processResults Estimator.initHT [Estimator.dL1] 1000)
          [Estimator.dL2] 2000)
        [] 3000)
      [] 4000).left = none ∧
    (Estimator.processResults
      (Estimator.processResults
        (Estimator.processResults Estimator.initHT [Estimator.dL1] 1000)
        [Estimator.dL2] 2000)
      [] 3000).left = none ∧
    (Estimator.processResults
      (Estimator.processResults
        (Estimator.processResults
          (Estimator.processResults Estimator.initHT [Estimator.dL1] 1000)
          [Estimator.dL2] 2000)
        [] 3000)
      [] 4000).leftVelocity = ⟨3/5, 0, 0⟩ ∧
    (⟨3/5, 0, 0⟩ : Vec3) ≠ Vec3.zero := by
  have hs1 : Estimator.processResults Estimator.initHT [Estimator.dL1] 1000 =
      { left := some ⟨0, 4/5, -4/25⟩, right := none
        lastLeft := some ⟨0, 4/5, -4/25⟩, lastRight := none
        leftVelocity := Vec3.zero, rightVelocity := Vec3.zero
        leftGripping := false, rightGripping := false
        lastTimestamp := 1000 } := by
    unfold Estimator.processResults Estimator.scanDetections
    norm_num [Estimator.dL1, Estimator.mapHandToWorld, Estimator.checkGrip,
      Estimator.curledCount, Estimator.curledFinger, Estimator.initHT]
  have hs2 : Estimator.processResults
      { left := some ⟨0, 4/5, -4/25⟩, right := none
        lastLeft := some ⟨0, 4/5, -4/25⟩, lastRight := none
        leftVelocity := Vec3.zero, rightVelocity := Vec3.zero
        leftGripping := false, rightGripping := false
        lastTimestamp := (1000 : ℚ) } [Estimator.dL2] 2000 =
      { left := some ⟨3/5, 4/5, -4/25⟩, right := none
        lastLeft := some ⟨0, 4/5, -4/25⟩, lastRight := none
        leftVelocity := ⟨3/5, 0, 0⟩, rightVelocity := Vec3.zero
        leftGripping := false, rightGripping := false
        lastTimestamp := 2000 } := by
    unfold Estimator.processResults Estimator.scanDetections
    norm_num [Estimator.dL2, Estimator.mapHandToWorld, Estimator.checkGrip,
      Estimator.curledCount, Estimator.curledFinger, lerpV, Vec3.sub, Vec3.add,
      Vec3.scale, Vec3.zero]
  have hs3 : Estimator.processResults
      { left := some ⟨3/5, 4/5, -4/25⟩, right := none
        lastLeft := some ⟨0, 4/5, -4/25⟩, lastRight := none
        leftVelocity := ⟨3/5, 0, 0⟩, rightVelocity := Vec3.zero
        leftGripping := false, rightGripping := false
        lastTimestamp := (2000 : ℚ) } [] 3000 =
      { left := none, right := none
        lastLeft := some ⟨0, 4/5, -4/25⟩, lastRight := none
        leftVelocity := ⟨3/5, 0, 0⟩, rightVelocity := Vec3.zero
        leftGripping := false, rightGripping := false
        lastTimestamp := 3000 } := by
    unfold Estimator.processResults Estimator.scanDetections
    norm_num
  have hs4 : Estimator.processResults
      { left := none, right := none
        lastLeft := some ⟨0, 4/5, -4/25⟩, lastRight := none
        leftVelocity := ⟨3/5, 0, 0⟩, rightVelocity := Vec3.zero
        leftGripping := false, rightGripping := false
        lastTimestamp := (3000 : ℚ) } [] 4000 =
      { left := none, right := none
        lastLeft := some ⟨0, 4/5, -4/25⟩, lastRight := none
        leftVelocity := ⟨3/5, 0, 0⟩, rightVelocity := Vec3.zero
        leftGripping := false, rightGripping := false
        lastTimestamp := 4000 } := by
    unfold Estimator.processResults Estimator.scanDetections
    norm_num
  rw [hs1, hs2, hs3, hs4]
  refine ⟨rfl, rfl, rfl, ?_⟩
  simp [Vec3.zero]

theorem sortedByTime_get_le {notes : List NoteData} (hs : SortedByTime notes)
    {i j : ℕ} (hij : i ≤ j) (hj : j < notes.length) :
    (notes.get ⟨i, lt_of_le_of_lt hij hj⟩).time ≤ (notes.get ⟨j, hj⟩).time := by
  rcases eq_or_lt_of_le hij with rfl | h
  · exact le_refl _
  · exact List.pairwise_iff_get.mp hs ⟨i, lt_of_le_of_lt hij hj⟩ ⟨j, hj⟩ (Fin.mk_lt_mk.mpr h)

theorem activateFrom_ge (notes : List NoteData) (t : ℚ) (idx : ℕ) :
    idx ≤ IndexTsx.activateFrom notes t idx := by
  have H : ∀ n idx, notes.length - idx ≤ n → idx ≤ IndexTsx.activateFrom notes t idx := by
    intro n
    induction n with
    | zero =>
      intro idx hn
      unfold IndexTsx.activateFrom
      rw [dif_neg (by omega)]
    | succ n ih =>
      intro idx hn
      unfold IndexTsx.activateFrom
      by_cases h1 : idx < notes.length
      · rw [dif_pos h1]
        split_ifs with h2
        · exact le_trans (Nat.le_succ idx) (ih (idx + 1) (by omega))
        · exact le_refl idx
      · rw [dif_neg h1]
  exact H (notes.length - idx) idx le_rfl

theorem activateFrom_le (notes : List NoteData) (t : ℚ) (idx : ℕ)
    (hlen : idx ≤ notes.length) :
    IndexTsx.activateFrom notes t idx ≤ notes.length := by
  have H : ∀ n idx, notes.length - idx ≤ n → idx ≤ notes.length →
      IndexTsx.activateFrom notes t idx ≤ notes.length := by
    intro n
    induction n with
    | zero =>
      intro idx hn hl
      unfold IndexTsx.activateFrom
      rw [dif_neg (by omega)]
      exact hl
    | succ n ih =>
      intro idx hn hl
      unfold IndexTsx.activateFrom
      by_cases h1 : idx < notes.length
      · rw [dif_pos h1]
        split_ifs with h2
        · exact ih (idx + 1) (by omega) (by omega)
        · exact hl
      · rw [dif_neg h1]
        exact hl
  exact H (notes.length - idx) idx le_rfl hlen

theorem activateFrom_char (notes : List NoteData) (t : ℚ) (hs : SortedByTime notes)
    (idx : ℕ) (hlen : idx ≤ notes.length)
    (hpre : ∀ k (hk : k < notes.length), k < idx →
      (notes.get ⟨k, hk⟩).time - IndexTsx.spawnAheadTime ≤ t)
    (j : ℕ) (hj : j < notes.length) :
    (j < IndexTsx.activateFrom notes t idx ↔
      (notes.get ⟨j, hj⟩).time - IndexTsx.spawnAheadTime ≤ t) := by
  have H : ∀ n idx, notes.length - idx ≤ n → idx ≤ notes.length →
      (∀ k (hk : k < notes.length), k < idx →
        (notes.get ⟨k, hk⟩).time - IndexTsx.spawnAheadTime ≤ t) →
      (j < IndexTsx.activateFrom notes t idx ↔
        (notes.get ⟨j, hj⟩).time - IndexTsx.spawnAheadTime ≤ t) := by
    intro n
    induction n with
    | zero =>
      intro idx hn hl hpre
      unfold IndexTsx.activateFrom
      rw [dif_neg (by omega)]
      constructor
      · intro hji
        exact hpre j hj hji
      · intro _
        omega
    | succ n ih =>
      intro idx hn hl hpre
      unfold IndexTsx.activateFrom
      by_cases h1 : idx < notes.length
      · rw [dif_pos h1]
        split_ifs with h2
        · refine ih (idx + 1) (by omega) (by omega) ?_
          intro k hk hki
          rcases Nat.lt_succ_iff_lt_or_eq.mp hki with hk2 | rfl
          · exact hpre k hk hk2
          · exact h2
        · constructor
          · intro hji
            exact hpre j hj hji
          · intro hcond
            by_contra hji
            push_neg at hji
            have hmono := sortedByTime_get_le hs hji hj
            exact h2 (by linarith)
      · rw [dif_neg h1]
        constructor
        · intro hji
          exact hpre j hj hji
        · intro _
          omega
  exact H (notes.length - idx) idx le_rfl hlen hpre

theorem runActivation_char (notes : List NoteData) (hs : SortedByTime notes)
    (ts : List ℚ) :
    ts.Chain' (· ≤ ·) → ∀ (hne : ts ≠ []) (idx : ℕ), idx ≤ notes.length →
    (∀ k (hk : k < notes.length), k < idx →
      (notes.get ⟨k, hk⟩).time - IndexTsx.spawnAheadTime ≤ ts.head hne) →
    ∀ j (hj : j < notes.length),
      (j < ts.foldl (fun idx t => IndexTsx.activateFrom notes t idx) idx ↔
        (notes.get ⟨j, hj⟩).time - IndexTsx.spawnAheadTime ≤ ts.getLast hne) := by
  induction ts with
  | nil => intro _ hne; exact absurd rfl hne
  | cons t rest ih =>
    intro hch hne idx hlen hpre j hj
    rw [List.foldl_cons]
    rcases rest with _ | ⟨t2, rest'⟩
    · simp only [List.foldl_nil, List.getLast_singleton]
      exact activateFrom_char notes t hs idx hlen (by simpa using hpre) j hj
    · have hcc := List.chain'_cons.mp hch
      have ht12 : t ≤ t2 := hcc.1
      have hch2 : (t2 :: rest').Chain' (· ≤ ·) := hcc.2
      have h1 : IndexTsx.activateFrom notes t idx ≤ notes.length :=
        activateFrom_le notes t idx hlen
      have hchar := activateFrom_char notes t hs idx hlen (by simpa using hpre)
      have hpre2 : ∀ k (hk : k < notes.length), k < IndexTsx.activateFrom notes t idx →
          (notes.get ⟨k, hk⟩).time - IndexTsx.spawnAheadTime ≤
            (t2 :: rest').head (by simp) := by
        intro k hk hki
        have := (hchar k hk).mp hki
        simp only [List.head_cons]
        linarith
      have hlast : (t :: t2 :: rest').getLast hne = (t2 :: rest').getLast (by simp) := by
        rw [List.getLast_cons]
      rw [hlast]
      exact ih hch2 (by simp) (IndexTsx.activateFrom notes t idx) h1 hpre2 j hj

/-- C4: across any sequence of ticks, the chart-activation cursor is
non-decreasing (each tick's activation loop only advances it, so earlier
chart entries are never re-examined); and for a time-sorted chart, across
any non-empty sequence of ticks with non-decreasing playback times, a
chart entry has been activated — the cursor has advanced past it —
exactly when `note.time - spawnAheadTime ≤ t` holds at the latest tick
time `t`, where `spawnAheadTime = |SPAWN_Z - PLAYER_Z| / NOTE_SPEED`. -/
theorem activation_cursor (notes : List NoteData) :
    (∀ (t : ℚ) (idx : ℕ), idx ≤ IndexTsx.activateFrom notes t idx) ∧
    (SortedByTime notes →
      ∀ ts : List ℚ, ts.Chain' (· ≤ ·) → ∀ hne : ts ≠ [],
      ∀ j (hj : j < notes.length),
        (j < IndexTsx.runActivation notes ts ↔
          (notes.get ⟨j, hj⟩).time - IndexTsx.spawnAheadTime ≤ ts.getLast hne)) := by
  constructor
  · intro t idx
    exact activateFrom_ge notes t idx
  · intro hs ts hch hne j hj
    exact runActivation_char notes hs ts hch hne 0 (Nat.zero_le _)
      (by intro k hk hki; omega) j hj

/-- Witness for C4 on a concrete two-note chart and tick times `[0, 3]`. -/
theorem activation_cursor_witness :
    0 < IndexTsx.runActivation [n0c, n1c] [0, 3] :=
  ((activation_cursor [n0c, n1c]).2
      (by
        constructor
        · intro b hb
          simp only [List.mem_singleton] at hb
          rw [hb]
          norm_num [n0c, n1c]
        · simp)
      [0, 3]
      (by
        rw [List.chain'_cons]
        exact ⟨by norm_num, by simp⟩)
      (by simp) 0 (by simp)).mpr
    (by norm_num [n0c, IndexTsx.spawnAheadTime, IndexTsx.SPAWN_Z, IndexTsx.PLAYER_Z,
      IndexTsx.NOTE_SPEED, List.getLast])

theorem gameOver_absorbing (s : GameOver.AppState) (a : GameOver.GAction)
    (h : s.status = .gameOver) : (GameOver.stepA s a).status = .gameOver := by
  cases a with
  | noteHit g =>
    simp only [GameOver.stepA]
    rw [if_neg (by rw [h]; simp)]
    exact h
  | noteMiss =>
    simp only [GameOver.stepA]
    rw [if_neg (by rw [h]; simp)]
    exact h
  | runTimeout =>
    simp only [GameOver.stepA]
    split_ifs <;> simp [h]

theorem playing_step_status (s : GameOver.AppState) (a : GameOver.GAction)
    (h : s.status = .playing) :
    (GameOver.stepA s a).status = .playing ∨ (GameOver.stepA s a).status = .gameOver := by
  cases a with
  | noteHit g =>
    simp only [GameOver.stepA]
    rw [if_pos h]
    exact Or.inl h
  | noteMiss =>
    simp only [GameOver.stepA]
    rw [if_pos h]
    split_ifs <;> exact Or.inl h
  | runTimeout =>
    simp only [GameOver.stepA]
    split_ifs
    · exact Or.inr rfl
    · exact Or.inl h

theorem transCount_of_gameOver (acts : List GameOver.GAction) :
    ∀ s : GameOver.AppState, s.status = .gameOver → GameOver.transCount s acts = 0 := by
  induction acts with
  | nil => intro s _; rfl
  | cons a rest ih =>
    intro s h
    simp only [GameOver.transCount]
    rw [if_neg (by simp [h])]
    simpa using ih (GameOver.stepA s a) (gameOver_absorbing s a h)

theorem transCount_le_one (acts : List GameOver.GAction) :
    ∀ s : GameOver.AppState, GameOver.transCount s acts ≤ 1 := by
  induction acts with
  | nil => intro s; simp [GameOver.transCount]
  | cons a rest ih =>
    intro s
    simp only [GameOver.transCount]
    by_cases h : s.status ≠ GameOver.Status.gameOver ∧
        (GameOver.stepA s a).status = GameOver.Status.gameOver
    · rw [if_pos h]
      rw [transCount_of_gameOver rest (GameOver.stepA s a) h.2]
    · rw [if_neg h]
      simpa using ih (GameOver.stepA s a)

theorem transCount_one_of_run (acts : List GameOver.GAction) :
    ∀ s : GameOver.AppState, s.status = .playing →
    (GameOver.runA s acts).status = .gameOver → GameOver.transCount s acts = 1 := by
  induction acts with
  | nil =>
    intro s h1 h2
    rw [show GameOver.runA s [] = s from rfl, h1] at h2
    exact absurd h2 (by simp)
  | cons a rest ih =>
    intro s h1 h2
    simp only [GameOver.transCount]
    rcases playing_step_status s a h1 with hp | hg
    · rw [if_neg (by simp [hp])]
      have h2' : (GameOver.runA (GameOver.stepA s a) rest).status = .gameOver := by
        simpa [GameOver.runA, List.foldl_cons] using h2
      simpa using ih (GameOver.stepA s a) hp h2'
    · rw [if_pos ⟨by simp [h1], hg⟩]
      rw [transCount_of_gameOver rest (GameOver.stepA s a) hg]

/-- C7: along any action trace of the composed system, the session phase
changes to `GAME_OVER` at most once; any trace starting from `PLAYING`
that ends in `GAME_OVER` contains exactly one such transition; a miss
that depletes the health (health `≤ 15` while playing) queues an
`endGame` callback whose execution moves the phase to `GAME_OVER`; and
once the phase is `GAME_OVER`, hit and miss events are no longer
processed — they leave the state unchanged, because the tick loop emits
events only while the phase is `PLAYING`. -/
theorem game_over_once :
    (∀ (s : GameOver.AppState) (acts : List GameOver.GAction),
      GameOver.transCount s acts ≤ 1) ∧
    (∀ (s : GameOver.AppState) (acts : List GameOver.GAction),
      s.status = .playing → (GameOver.runA s acts).status = .gameOver →
        GameOver.transCount s acts = 1) ∧
    (∀ s : GameOver.AppState, s.status = .playing → s.health ≤ 15 →
      (GameOver.runA s [.noteMiss, .runTimeout]).status = .gameOver) ∧
    (∀ s : GameOver.AppState, s.status = .gameOver →
      (∀ g, GameOver.stepA s (.noteHit g) = s) ∧ GameOver.stepA s .noteMiss = s) := by
  refine ⟨fun s acts => transCount_le_one acts s,
    fun s acts => transCount_one_of_run acts s, ?_, ?_⟩
  · intro s h1 h2
    show (GameOver.stepA (GameOver.stepA s .noteMiss) .runTimeout).status = .gameOver
    have hm : GameOver.stepA s .noteMiss =
        { s with combo := 0, multiplier := 1, health := 0
                 pendingEndGame := s.pendingEndGame + 1 } := by
      simp only [GameOver.stepA]
      rw [if_pos h1, if_pos (by omega)]
    rw [hm]
    simp only [GameOver.stepA]
    rw [if_pos (by simp)]
  · intro s h
    constructor
    · intro g
      simp only [GameOver.stepA]
      rw [if_neg (by rw [h]; simp)]
    · simp only [GameOver.stepA]
      rw [if_neg (by rw [h]; simp)]

/-- Witness for C7: one depleting miss plus the deferred `endGame`
reaches `GAME_OVER` with exactly one phase transition. -/
theorem game_over_once_witness :
    (GameOver.runA lowHealthState [.noteMiss, .runTimeout]).status = .gameOver ∧
    GameOver.transCount lowHealthState [.noteMiss, .runTimeout] = 1 :=
  have h1 : (GameOver.runA lowHealthState [.noteMiss, .runTimeout]).status = .gameOver :=
    game_over_once.2.2.1 lowHealthState rfl (by decide)
  ⟨h1, game_over_once.2.1 lowHealthState [.noteMiss, .runTimeout] rfl h1⟩

/-- Witness for C1: at `t = 2` the note of `noteW` resolves as a hit. -/
theorem hit_judgement_witness :
    ∃ g, IndexTsx.judgeNote handsW 2 noteW = .hit g :=
  (hit_judgement handsW 2 noteW rfl rfl).1.mpr
    ⟨by norm_num [IndexTsx.depthAt, IndexTsx.PLAYER_Z, IndexTsx.NOTE_SPEED, noteW],
     by norm_num [IndexTsx.depthAt, IndexTsx.PLAYER_Z, IndexTsx.NOTE_SPEED, noteW],
     ⟨-6/5, 4/5, 0⟩, rfl,
     by norm_num [distSq, normSq, dot, Vec3.sub, IndexTsx.noteWorldPos, IndexTsx.depthAt,
       IndexTsx.PLAYER_Z, IndexTsx.NOTE_SPEED, IndexTsx.LANE_X_POSITIONS,
       IndexTsx.LAYER_Y_POSITIONS, IndexTsx.LANE_WIDTH, noteW]⟩

end TempoStrike
